import Mathlib

/-!
Shallow embedding of the abipy flowtk workflow-construction code under
verification: `abipy/flowtk/eph_flows.py` (class `GkqPathFlow`) and
`abipy/flowtk/dfpt_works.py` (class `ElasticWork`).

Tasks and Works of the framework (`works.py`, `flows.py`) appear here only
through the registration records the two constructors build: each call to a
`register_*_task` method is embedded as a `Reg` value (task kind, input,
dependency dictionary) appended to a list, and the dictionaries passed as
`deps=...` are embedded as association lists that keep the Python dict's
key/value shapes.
-/

namespace Abipy

/-- Artifact names ("WFK", "DDB", ...) are plain strings in the source. -/
abbrev ArtName := String

/-- A reference to a node of the flow graph: a task (identified by its
registration index inside its work) or a whole work (identified by its
position in the flow). In the Python source these are the `Task`/`Work`
objects used as dictionary keys. -/
inductive NodeRef
  | task (idx : Nat)
  | work (idx : Nat)
deriving DecidableEq, Repr

/-- A key of a Python `deps` dictionary. The source always uses node
objects as keys; the spec describes artifact-name keys, so both shapes are
representable and we can compare them. -/
inductive DepKey
  | node (n : NodeRef)
  | art (a : ArtName)
deriving DecidableEq, Repr

/-- A value of a Python `deps` dictionary: a single artifact name
(`{task: "WFK"}`), a list of artifact names (`{work: ["DDB", "DVDB"]}`),
or a node reference (the shape the spec's words describe). -/
inductive DepVal
  | node (n : NodeRef)
  | art (a : ArtName)
  | arts (l : List ArtName)
deriving DecidableEq, Repr

/-- A `deps` dictionary, embedded as an association list in insertion
order. -/
abbrev Deps := List (DepKey × DepVal)

/-- The artifact names carried by one dictionary value. -/
def DepVal.artNames : DepVal → List ArtName
  | .node _ => []
  | .art a => [a]
  | .arts l => l

/-- Python `dict.update`: entries of `d2` override entries of `d1` with the
same key; fresh keys are appended. -/
def depsUpdate (d1 d2 : Deps) : Deps :=
  d1.filter (fun p => d2.all (fun q => q.1 ≠ p.1)) ++ d2

/-- A value of an abinit input variable: a number or a vector (`qpt`,
`ddb_ngqpt`). Numeric literals of the Python source are embedded as
rationals. -/
inductive AbiVal
  | num (q : ℚ)
  | vec (l : List ℚ)
deriving DecidableEq, Repr

/-- An abinit input object: the mapping of variable names to values, in
insertion order with the most recent assignment first. -/
structure AbiInput where
  vars : List (String × AbiVal)
deriving DecidableEq, Repr

/-- Setting one input variable (`new_with_vars` / `inp[k] = v`). -/
def AbiInput.setVar (inp : AbiInput) (k : String) (v : AbiVal) : AbiInput :=
  ⟨(k, v) :: inp.vars.filter (fun p => p.1 ≠ k)⟩

/-- Reading one input variable (`inp["k"]`). -/
def AbiInput.getVar (inp : AbiInput) (k : String) : Option AbiVal :=
  (inp.vars.find? (fun p => p.1 == k)).map (·.2)

/-- Reading with a default (`inp.get("k", dflt)`). -/
def AbiInput.getVarD (inp : AbiInput) (k : String) (dflt : AbiVal) : AbiVal :=
  (inp.getVar k).getD dflt

/-- The kind of task a registration call creates, one kind per
`register_*_task` method used by the two constructors. -/
inductive TaskKind
  | scf | nscf | ddk | dde | phonon | elastic | eph
deriving DecidableEq, Repr

/-- One task-registration record: the kind requested, the input passed and
the dependency dictionary the task ends up with (the `deps=` argument plus
any later `add_deps` call). -/
structure Reg where
  kind : TaskKind
  input : AbiInput
  deps : Deps
deriving DecidableEq, Repr

/-! ## GkqPathFlow.from_scf_input (`eph_flows.py`) -/

/-- A phonon task of `work_qpath` as seen by the loops of
`GkqPathFlow.from_scf_input`: its q-point `tuple(task.input["qpt"])` and
its dependency dictionary `task.deps`. `PhononWfkqWork` itself is outside
the source under verification, so these two observations are the
parameters of the embedding. -/
structure PhTask where
  qpt : List ℚ
  deps : Deps
deriving DecidableEq, Repr

/-- `work_qmesh` is the second work registered in the flow. -/
def work_qmesh : NodeRef := .work 1

/-- `work_qpath` is the third work registered in the flow. -/
def work_qpath : NodeRef := .work 2

/-- `make_eph_input(scf_inp, ngqpt, qpt)` of `GkqPathFlow.from_scf_input`. -/
def make_eph_input (scf_inp : AbiInput) (ngqpt : List ℚ) (qpt : List ℚ) : AbiInput :=
  (((((scf_inp.setVar "optdriver" (.num 7)).setVar "eph_task" (.num (-2))).setVar
      "nqpt" (.num 1)).setVar "qpt" (.vec qpt)).setVar
      "ddb_ngqpt" (.vec ngqpt)).setVar "prtphdos" (.num 0)

/-- The deduplicating registration loop shared by the two works of
`GkqPathFlow.from_scf_input`: iterate over the phonon tasks, skip a task
whose q-point tuple is already in the seen-set `qseen`, otherwise register
the task `build qpt deps` and add the q-point to `qseen`. -/
def ephLoop (build : List ℚ → Deps → Reg) : List PhTask → List (List ℚ) → List Reg
  | [], _ => []
  | t :: rest, qseen =>
    if t.qpt ∈ qseen then ephLoop build rest qseen
    else build t.qpt t.deps :: ephLoop build rest (t.qpt :: qseen)

/-- The registration built for one fresh q-point of the fully ab-initio
work `eph_work`: `register_eph_task(make_eph_input(...), deps=task.deps)`
followed by `t.add_deps({work_qmesh: "DDB", work_qpath: "DVDB"})`. -/
def ephBuild (scf_input : AbiInput) (ngqpt : List ℚ) (qpt : List ℚ) (d : Deps) : Reg :=
  { kind := .eph
    input := make_eph_input scf_input ngqpt qpt
    deps := d ++ [(.node work_qmesh, .art "DDB"), (.node work_qpath, .art "DVDB")] }

/-- The registration built for one fresh q-point of the interpolation work
`inteph_work`: the same eph input with `eph_use_ftinterp = 1`, registered
with `deps=task.deps` and then `t.add_deps({work_qmesh: ["DDB", "DVDB"]})`. -/
def intephBuild (scf_input : AbiInput) (ngqpt : List ℚ) (qpt : List ℚ) (d : Deps) : Reg :=
  { kind := .eph
    input := (make_eph_input scf_input ngqpt qpt).setVar "eph_use_ftinterp" (.num 1)
    deps := d ++ [(.node work_qmesh, .arts ["DDB", "DVDB"])] }

/-- The two eph works built by `GkqPathFlow.from_scf_input`: the task
registrations of `eph_work`, and those of `inteph_work` when
`test_ft_interpolation` is true. -/
structure GkqFlow where
  eph_work : List Reg
  inteph_work : Option (List Reg)
deriving DecidableEq, Repr

/-- Embedding of the construction of the two matrix-element works in
`GkqPathFlow.from_scf_input`, parameterized by the phonon tasks of
`work_qpath`. Each loop starts from its own freshly initialized seen-set. -/
def GkqPathFlow.from_scf_input (scf_input : AbiInput) (ngqpt : List ℚ)
    (phonon_tasks : List PhTask) (test_ft_interpolation : Bool) : GkqFlow :=
  { eph_work := ephLoop (ephBuild scf_input ngqpt) phonon_tasks []
    inteph_work :=
      if test_ft_interpolation then
        some (ephLoop (intephBuild scf_input ngqpt) phonon_tasks [])
      else none }

/-- The q-point recorded in a registration's input, used to count tasks per
q-point. -/
def Reg.qptVar (r : Reg) : Option AbiVal := r.input.getVar "qpt"

/-- Number of registrations in `regs` whose input has `qpt = q`. -/
def countQpt (q : List ℚ) (regs : List Reg) : Nat :=
  (regs.filter (fun r => r.qptVar == some (.vec q))).length

/-! ## ElasticWork.from_scf_input (`dfpt_works.py`) -/

/-- A tolerance dictionary such as `{"tolwfr": 1.0e-20}`. -/
abbrev TolDict := List (String × ℚ)

/-- The `tolerances` argument: a dictionary mapping a category
("nscf", "ddk", "dde", "strain") to a tolerance dictionary. -/
abbrev Tolerances := List (String × TolDict)

/-- First-match association-list lookup, the embedding of Python
`d[k]` / `k in d` / `d.get(k)`. -/
def alookup (k : String) : List (String × α) → Option α
  | [] => none
  | p :: rest => if p.1 = k then some p.2 else alookup k rest

/-- Python runtime errors the construction can raise: reading a local
variable before assignment, or a missing dictionary key. -/
inductive PyErr
  | nameError (name : String)
  | keyError (key : String)
deriving DecidableEq, Repr

/-- Reading a Python local variable that is only conditionally assigned:
a `NameError` when the binding never happened. -/
def localRead (name : String) : Option Deps → Except PyErr Deps
  | none => .error (.nameError name)
  | some d => .ok d

/-- The `tolwfr` used for the NSCF task: `1.0e-20`, overridden by
`tolerances["nscf"]["tolwfr"]` when the key `"nscf"` is present (a missing
inner `"tolwfr"` key is a `KeyError`). -/
def nscfTolwfr (tolerances : Tolerances) : Except PyErr ℚ :=
  match alookup "nscf" tolerances with
  | none => .ok ((1 : ℚ) / 10 ^ 20)
  | some t =>
    match alookup "tolwfr" t with
    | none => .error (.keyError "tolwfr")
    | some x => .ok x

/-- The first registration of `ElasticWork.from_scf_input`: a plain SCF
task from `scf_input` when `den_deps is None`, otherwise an NSCF task on
`scf_input.new_with_vars(iscf=-2, tolwfr=tolwfr)` with `den_deps` as its
dependency dictionary. -/
def wfkRegOf (scf_input : AbiInput) (tolerances : Tolerances)
    (den_deps : Option Deps) : Except PyErr Reg :=
  match den_deps with
  | none => .ok { kind := .scf, input := scf_input, deps := [] }
  | some dd =>
    (nscfTolwfr tolerances).map fun tolwfr =>
      { kind := .nscf
        input := (scf_input.setVar "iscf" (.num (-2))).setVar "tolwfr" (.num tolwfr)
        deps := dd }

/-- The dependency entry `{wfk_task: "WFK"}`: the WFK producer is the first
registered task of the work. -/
def wfkDep : Deps := [(.node (.task 0), .art "WFK")]

/-- The dictionary `{ddk_task: "DDK" for ddk_task in ddk_tasks}` for `n`
DDK tasks sitting at registration indices `1 .. n`. -/
def ddkList (n : Nat) : Deps :=
  (List.range n).map fun i => (.node (.task (1 + i)), .art "DDK")

/-- The local variable `ddk_deps`: bound to
`{ddk_task: "DDK" for ddk_task in ddk_tasks}` exactly when the guard
`with_piezo or with_dde` held, and unbound otherwise. -/
def ddkDepsBinding (with_piezo with_dde : Bool) (n : Nat) : Option Deps :=
  if with_piezo || with_dde then some (ddkList n) else none

/-- Embedding of `ElasticWork.from_scf_input`. The input-building
collaborators `make_ddk_inputs`, `make_dde_inputs` and
`make_strain_perts_inputs` live outside the source under verification, so
their results `ddk_multi`, `dde_multi`, `strain_multi` are parameters.
The result is the registration list of the work, or the Python error the
construction raises. -/
def ElasticWork.from_scf_input (scf_input : AbiInput)
    (with_relaxed_ion with_piezo with_dde : Bool) (tolerances : Tolerances)
    (den_deps : Option Deps) (ddk_multi dde_multi strain_multi : List AbiInput) :
    Except PyErr (List Reg) :=
  match wfkRegOf scf_input tolerances den_deps with
  | .error e => .error e
  | .ok wfkReg =>
    let ddkRegs : List Reg :=
      if with_piezo || with_dde then
        ddk_multi.map fun inp => { kind := .ddk, input := inp, deps := wfkDep }
      else []
    let ddk_deps := ddkDepsBinding with_piezo with_dde ddk_multi.length
    match (if with_dde then localRead "ddk_deps" ddk_deps else .ok []) with
    | .error e => .error e
    | .ok ddeExtra =>
      let ddeRegs : List Reg :=
        if with_dde then
          dde_multi.map fun inp =>
            { kind := .dde, input := inp, deps := depsUpdate wfkDep ddeExtra }
        else []
      match (if with_relaxed_ion && with_piezo then localRead "ddk_deps" ddk_deps
             else .ok []) with
      | .error e => .error e
      | .ok phExtra =>
        let phRegs : List Reg :=
          if with_relaxed_ion then
            (strain_multi.filter fun inp => inp.getVarD "rfphon" (.num 0) == .num 1).map
              fun inp => { kind := .phonon, input := inp, deps := depsUpdate wfkDep phExtra }
          else []
        match (if with_piezo then localRead "ddk_deps" ddk_deps else .ok []) with
        | .error e => .error e
        | .ok elExtra =>
          let elRegs : List Reg :=
            (strain_multi.filter fun inp => inp.getVarD "rfstrs" (.num 0) != .num 0).map
              fun inp => { kind := .elastic, input := inp, deps := depsUpdate wfkDep elExtra }
          .ok ([wfkReg] ++ ddkRegs ++ ddeRegs ++ phRegs ++ elRegs)

/-- Whether an `ElasticWork.from_scf_input` outcome is a `NameError`. -/
def isNameError : Except PyErr (List Reg) → Bool
  | .error (.nameError _) => true
  | _ => false

/-! ## ElasticWork.on_all_ok (`dfpt_works.py`) -/

/-- The keyword arguments `ElasticWork.on_all_ok` passes to
`merge_ddb_files`. -/
structure MergeArgs where
  delete_source_ddbs : Bool
  only_dfpt_tasks : Bool
deriving DecidableEq, Repr

/-- The object `self.Results(node=self, returncode=..., message=...)`
returned by the finishing action. -/
structure Results where
  returncode : Int
  message : String
deriving DecidableEq, Repr

/-- Embedding of `ElasticWork.on_all_ok`: call
`merge_ddb_files(delete_source_ddbs=False, only_dfpt_tasks=False)` (a
`MergeDdb` method outside the source under verification, hence a fallible
parameter returning the merged DDB path), then build and return
`Results(returncode=0, message="DDB merge done")`. An error raised by the
merge propagates: `on_all_ok` contains no handler. -/
def ElasticWork.on_all_ok (merge_ddb_files : MergeArgs → Except String String) :
    Except String Results :=
  match merge_ddb_files { delete_source_ddbs := false, only_dfpt_tasks := false } with
  | .error e => .error e
  | .ok _out_ddb => .ok { returncode := 0, message := "DDB merge done" }

/-- A task status of the engine's status table. -/
inductive TaskStatus
  | init | ready | running | succeeded | failed
deriving DecidableEq, Repr

/-- The structured result the engine records for a finished work. -/
structure WorkResult where
  success : Bool
  message : String
deriving DecidableEq, Repr

/-- Modelled from the spec: the engine invokes the finishing action once
all member tasks succeeded; a normal return with returncode 0 is recorded
as a success Result, and an `AggregationFailure` (the finishing action
raising) is "reported as the Work's Result with success=false" while the
member tasks' statuses are left untouched. The framework code that does
this (`works.py`/`flows.py`) is not part of the source under
verification. -/
def finishWork (statuses : List TaskStatus) (action : Except String Results) :
    WorkResult × List TaskStatus :=
  match action with
  | .ok r => ({ success := r.returncode == 0, message := r.message }, statuses)
  | .error e => ({ success := false, message := e }, statuses)

/-! ## Predicates used by the claims -/

/-- The controlled artifact-name vocabulary. -/
def vocab : List ArtName := ["WFK", "DDK", "DDB", "DVDB"]

/-- Every artifact name mentioned by the entries of `d` belongs to the
vocabulary. -/
def depsInVocab (d : Deps) : Bool :=
  d.all fun e => e.2.artNames.all fun a => vocab.contains a

/-- The dictionary-entry shape the spec's words describe: an artifact-name
key mapped to a producer-node value. -/
def entrySpecShaped : DepKey × DepVal → Bool
  | (.art _, .node _) => true
  | _ => false

/-- The dictionary-entry shape the source constructs: a producer-node key
mapped to an artifact name or to a list of artifact names. -/
def entryCodeShaped : DepKey × DepVal → Bool
  | (.node _, .art _) => true
  | (.node _, .arts _) => true
  | _ => false

/-- Where an entry of a dependency dictionary built by
`ElasticWork.from_scf_input` can come from: the caller's `den_deps`, the
`{wfk_task: "WFK"}` entry, or a `{ddk_task: "DDK"}` entry. -/
def elasticEntryOK (den_deps : Option Deps) (e : DepKey × DepVal) : Prop :=
  (∃ dd, den_deps = some dd ∧ e ∈ dd) ∨
  e = (.node (.task 0), .art "WFK") ∨
  ∃ i, e = (.node (.task (1 + i)), .art "DDK")

/-- Where an entry of a dependency dictionary of the two eph works of
`GkqPathFlow.from_scf_input` can come from: a phonon task's `task.deps`,
or one of the entries passed to `add_deps`. -/
def gkqEntryOK (phonon_tasks : List PhTask) (e : DepKey × DepVal) : Prop :=
  (∃ t ∈ phonon_tasks, e ∈ t.deps) ∨
  e = (.node work_qmesh, .art "DDB") ∨
  e = (.node work_qpath, .art "DVDB") ∨
  e = (.node work_qmesh, .arts ["DDB", "DVDB"])

/-- The DDK registrations of `ElasticWork.from_scf_input` (guard
`with_piezo or with_dde`), written as a standalone list for the closed
form of the construction. -/
def ddkRegsOf (g : Bool) (ddk_multi : List AbiInput) : List Reg :=
  if g then ddk_multi.map fun inp => { kind := .ddk, input := inp, deps := wfkDep }
  else []

/-- The DDE registrations of `ElasticWork.from_scf_input` for `n` DDK
tasks. -/
def ddeRegsOf (with_dde : Bool) (n : Nat) (dde_multi : List AbiInput) : List Reg :=
  if with_dde then
    dde_multi.map fun inp =>
      { kind := .dde, input := inp, deps := depsUpdate wfkDep (ddkList n) }
  else []

/-- The phonon registrations of `ElasticWork.from_scf_input`: strain
inputs with `rfphon == 1`, reading the DDK artifacts when `with_piezo`. -/
def phRegsOf (with_relaxed_ion with_piezo : Bool) (n : Nat)
    (strain_multi : List AbiInput) : List Reg :=
  if with_relaxed_ion then
    (strain_multi.filter fun inp => inp.getVarD "rfphon" (.num 0) == .num 1).map
      fun inp => { kind := .phonon, input := inp,
                   deps := depsUpdate wfkDep (if with_piezo then ddkList n else []) }
  else []

/-- The elastic registrations of `ElasticWork.from_scf_input`: strain
inputs with `rfstrs != 0`, reading the DDK artifacts when `with_piezo`. -/
def elRegsOf (with_piezo : Bool) (n : Nat) (strain_multi : List AbiInput) : List Reg :=
  (strain_multi.filter fun inp => inp.getVarD "rfstrs" (.num 0) != .num 0).map
    fun inp => { kind := .elastic, input := inp,
                 deps := depsUpdate wfkDep (if with_piezo then ddkList n else []) }

/-! ## Lemmas about the deduplicating loop -/

theorem countQpt_nil (q : List ℚ) : countQpt q [] = 0 := rfl

theorem countQpt_cons (q : List ℚ) (r : Reg) (regs : List Reg) :
    countQpt q (r :: regs) =
      countQpt q regs + (if r.qptVar = some (.vec q) then 1 else 0) := by
  by_cases h : r.qptVar = some (.vec q) <;>
    simp [countQpt, List.filter_cons, h]

theorem ephLoop_cons_seen (build : List ℚ → Deps → Reg) (t : PhTask)
    (rest : List PhTask) (qseen : List (List ℚ)) (h : t.qpt ∈ qseen) :
    ephLoop build (t :: rest) qseen = ephLoop build rest qseen := by
  simp [ephLoop, h]

theorem ephLoop_cons_fresh (build : List ℚ → Deps → Reg) (t : PhTask)
    (rest : List PhTask) (qseen : List (List ℚ)) (h : t.qpt ∉ qseen) :
    ephLoop build (t :: rest) qseen =
      build t.qpt t.deps :: ephLoop build rest (t.qpt :: qseen) := by
  simp [ephLoop, h]

/-- The q-point registered for a fresh q-point is recoverable from the
ab-initio eph input. -/
theorem qptVar_ephBuild (scf : AbiInput) (ngqpt q : List ℚ) (d : Deps) :
    (ephBuild scf ngqpt q d).qptVar = some (.vec q) := rfl

/-- The q-point registered for a fresh q-point is recoverable from the
interpolation eph input. -/
theorem qptVar_intephBuild (scf : AbiInput) (ngqpt q : List ℚ) (d : Deps) :
    (intephBuild scf ngqpt q d).qptVar = some (.vec q) := rfl

/-- Counting the loop's registrations per q-point: one for every q-point
occurring among the remaining tasks and not yet seen, zero otherwise. -/
theorem countQpt_ephLoop (build : List ℚ → Deps → Reg)
    (hbuild : ∀ q d, (build q d).qptVar = some (.vec q)) :
    ∀ (ts : List PhTask) (qseen : List (List ℚ)) (q : List ℚ),
      countQpt q (ephLoop build ts qseen) =
        if q ∈ ts.map PhTask.qpt ∧ q ∉ qseen then 1 else 0 := by
  intro ts
  induction ts with
  | nil => intro qseen q; simp [ephLoop, countQpt]
  | cons t rest ih =>
    intro qseen q
    by_cases hseen : t.qpt ∈ qseen
    · rw [ephLoop_cons_seen build t rest qseen hseen, ih]
      by_cases hq : q = t.qpt
      · subst hq; simp [hseen]
      · simp [hq]
    · rw [ephLoop_cons_fresh build t rest qseen hseen, countQpt_cons, ih]
      by_cases hq : q = t.qpt
      · subst hq; simp [hbuild, hseen]
      · simp [hbuild, hq, Ne.symm hq]

/-- Appending a phonon task whose q-point is already covered leaves the
loop's output unchanged. -/
theorem ephLoop_append_dup (build : List ℚ → Deps → Reg) :
    ∀ (ts : List PhTask) (qseen : List (List ℚ)) (t : PhTask),
      (t.qpt ∈ ts.map PhTask.qpt ∨ t.qpt ∈ qseen) →
      ephLoop build (ts ++ [t]) qseen = ephLoop build ts qseen := by
  intro ts
  induction ts with
  | nil =>
    intro qseen t h
    simp only [List.map_nil, List.not_mem_nil, false_or] at h
    simp [ephLoop, h]
  | cons s rest ih =>
    intro qseen t h
    by_cases hs : s.qpt ∈ qseen
    · rw [List.cons_append, ephLoop_cons_seen _ _ _ _ hs,
        ephLoop_cons_seen _ _ _ _ hs, ih]
      rcases h with h | h
      · rw [List.map_cons] at h
        rcases List.mem_cons.mp h with h | h
        · exact Or.inr (h ▸ hs)
        · exact Or.inl h
      · exact Or.inr h
    · rw [List.cons_append, ephLoop_cons_fresh _ _ _ _ hs,
        ephLoop_cons_fresh _ _ _ _ hs, ih]
      rcases h with h | h
      · rw [List.map_cons] at h
        rcases List.mem_cons.mp h with h | h
        · exact Or.inr (by simp [h])
        · exact Or.inl h
      · exact Or.inr (List.mem_cons_of_mem _ h)

/-- Every registration the loop emits comes from one of the phonon tasks. -/
theorem mem_ephLoop (build : List ℚ → Deps → Reg) :
    ∀ (ts : List PhTask) (qseen : List (List ℚ)) (r : Reg),
      r ∈ ephLoop build ts qseen → ∃ t ∈ ts, r = build t.qpt t.deps := by
  intro ts
  induction ts with
  | nil => intro qseen r h; simp [ephLoop] at h
  | cons s rest ih =>
    intro qseen r h
    by_cases hs : s.qpt ∈ qseen
    · rw [ephLoop_cons_seen _ _ _ _ hs] at h
      obtain ⟨t, ht, rfl⟩ := ih _ _ h
      exact ⟨t, List.mem_cons_of_mem _ ht, rfl⟩
    · rw [ephLoop_cons_fresh _ _ _ _ hs] at h
      rcases List.mem_cons.mp h with h | h
      · exact ⟨s, List.mem_cons_self _ _, h⟩
      · obtain ⟨t, ht, rfl⟩ := ih _ _ h
        exact ⟨t, List.mem_cons_of_mem _ ht, rfl⟩

/-! ## Lemmas about ElasticWork.from_scf_input -/

theorem wfkRegOf_error (scf : AbiInput) (tol : Tolerances) (den : Option Deps)
    (e : PyErr) (h : wfkRegOf scf tol den = .error e) : e = .keyError "tolwfr" := by
  unfold wfkRegOf at h
  rcases den with _ | dd
  · exact absurd h (by simp)
  · unfold nscfTolwfr at h
    rcases h1 : alookup "nscf" tol with _ | t
    · rw [h1] at h; simp [Except.map] at h
    · rw [h1] at h
      dsimp only at h
      rcases h2 : alookup "tolwfr" t with _ | x
      · rw [h2] at h; simp [Except.map] at h; exact h.symm
      · rw [h2] at h; simp [Except.map] at h

theorem wfkRegOf_deps (scf : AbiInput) (tol : Tolerances) (den : Option Deps)
    (w : Reg) (h : wfkRegOf scf tol den = .ok w) :
    w.deps = [] ∨ ∃ dd, den = some dd ∧ w.deps = dd := by
  unfold wfkRegOf at h
  rcases den with _ | dd
  · obtain rfl := Except.ok.inj h
    exact Or.inl rfl
  · rcases hn : nscfTolwfr tol with e | x
    · rw [hn] at h; simp [Except.map] at h
    · rw [hn] at h
      simp only [Except.map] at h
      obtain rfl := Except.ok.inj h
      exact Or.inr ⟨dd, rfl, rfl⟩

/-- Closed form of the registration list `ElasticWork.from_scf_input`
builds, once the WFK registration succeeded. -/
theorem elastic_regs_explicit (scf : AbiInput) (ri p d : Bool) (tol : Tolerances)
    (den : Option Deps) (dm em sm : List AbiInput) (w : Reg)
    (hw : wfkRegOf scf tol den = .ok w) :
    ElasticWork.from_scf_input scf ri p d tol den dm em sm =
      .ok ([w] ++ ddkRegsOf (p || d) dm ++ ddeRegsOf d dm.length em ++
        phRegsOf ri p dm.length sm ++ elRegsOf p dm.length sm) := by
  cases p <;> cases d <;> cases ri <;>
    simp [ElasticWork.from_scf_input, hw, localRead, ddkDepsBinding,
      ddkRegsOf, ddeRegsOf, phRegsOf, elRegsOf]

theorem mem_depsUpdate {e : DepKey × DepVal} {d1 d2 : Deps}
    (h : e ∈ depsUpdate d1 d2) : e ∈ d1 ∨ e ∈ d2 := by
  rcases List.mem_append.mp h with h | h
  · exact Or.inl (List.mem_of_mem_filter h)
  · exact Or.inr h

theorem deps_of_mem_ddkRegsOf (g : Bool) (dm : List AbiInput) (r : Reg)
    (h : r ∈ ddkRegsOf g dm) : r.deps = wfkDep := by
  unfold ddkRegsOf at h
  split at h
  · obtain ⟨inp, _, rfl⟩ := List.mem_map.mp h; rfl
  · exact absurd h (List.not_mem_nil r)

theorem deps_of_mem_ddeRegsOf (d : Bool) (n : Nat) (em : List AbiInput) (r : Reg)
    (h : r ∈ ddeRegsOf d n em) : r.deps = depsUpdate wfkDep (ddkList n) := by
  unfold ddeRegsOf at h
  split at h
  · obtain ⟨inp, _, rfl⟩ := List.mem_map.mp h; rfl
  · exact absurd h (List.not_mem_nil r)

theorem deps_of_mem_phRegsOf (ri p : Bool) (n : Nat) (sm : List AbiInput) (r : Reg)
    (h : r ∈ phRegsOf ri p n sm) :
    r.deps = depsUpdate wfkDep (if p then ddkList n else []) := by
  unfold phRegsOf at h
  split at h
  · obtain ⟨inp, _, rfl⟩ := List.mem_map.mp h; rfl
  · exact absurd h (List.not_mem_nil r)

theorem deps_of_mem_elRegsOf (p : Bool) (n : Nat) (sm : List AbiInput) (r : Reg)
    (h : r ∈ elRegsOf p n sm) :
    r.deps = depsUpdate wfkDep (if p then ddkList n else []) := by
  unfold elRegsOf at h
  obtain ⟨inp, _, rfl⟩ := List.mem_map.mp h; rfl

theorem entryOK_of_mem_wfkDep (den : Option Deps) (e : DepKey × DepVal)
    (h : e ∈ wfkDep) : elasticEntryOK den e := by
  rcases List.mem_cons.mp h with h | h
  · exact Or.inr (Or.inl h)
  · exact absurd h (List.not_mem_nil e)

theorem entryOK_of_mem_ddkList (den : Option Deps) (n : Nat) (e : DepKey × DepVal)
    (h : e ∈ ddkList n) : elasticEntryOK den e := by
  obtain ⟨i, _, rfl⟩ := List.mem_map.mp h
  exact Or.inr (Or.inr ⟨i, rfl⟩)

theorem entryOK_of_mem_extra (den : Option Deps) (p : Bool) (n : Nat)
    (e : DepKey × DepVal) (h : e ∈ depsUpdate wfkDep (if p then ddkList n else [])) :
    elasticEntryOK den e := by
  rcases mem_depsUpdate h with h | h
  · exact entryOK_of_mem_wfkDep den e h
  · split at h
    · exact entryOK_of_mem_ddkList den n e h
    · exact absurd h (List.not_mem_nil e)

/-- Origin of every dependency entry of every task
`ElasticWork.from_scf_input` registers: the caller's `den_deps`, the
`{wfk_task: "WFK"}` entry, or a `{ddk_task: "DDK"}` entry. -/
theorem elastic_deps_entry_cases (scf : AbiInput) (ri p d : Bool) (tol : Tolerances)
    (den : Option Deps) (dm em sm : List AbiInput) (regs : List Reg)
    (hok : ElasticWork.from_scf_input scf ri p d tol den dm em sm = .ok regs) :
    ∀ r ∈ regs, ∀ e ∈ r.deps, elasticEntryOK den e := by
  rcases hw : wfkRegOf scf tol den with e0 | w
  · rw [ElasticWork.from_scf_input, hw] at hok
    exact absurd hok (by simp)
  · rw [elastic_regs_explicit scf ri p d tol den dm em sm w hw] at hok
    obtain rfl := Except.ok.inj hok
    intro r hr e he
    rcases List.mem_append.mp hr with hr | hr
    · rcases List.mem_append.mp hr with hr | hr
      · rcases List.mem_append.mp hr with hr | hr
        · rcases List.mem_append.mp hr with hr | hr
          · have hrw : r = w := by simpa using hr
            subst hrw
            rcases wfkRegOf_deps scf tol den r hw with hd | ⟨dd, hden, hd⟩
            · rw [hd] at he; exact absurd he (List.not_mem_nil e)
            · rw [hd] at he; exact Or.inl ⟨dd, hden, he⟩
          · rw [deps_of_mem_ddkRegsOf _ _ _ hr] at he
            exact entryOK_of_mem_wfkDep den e he
        · rw [deps_of_mem_ddeRegsOf _ _ _ _ hr] at he
          rcases mem_depsUpdate he with he | he
          · exact entryOK_of_mem_wfkDep den e he
          · exact entryOK_of_mem_ddkList den dm.length e he
      · rw [deps_of_mem_phRegsOf _ _ _ _ _ hr] at he
        exact entryOK_of_mem_extra den p dm.length e he
    · rw [deps_of_mem_elRegsOf _ _ _ _ hr] at he
      exact entryOK_of_mem_extra den p dm.length e he

theorem depsInVocab_iff (dx : Deps) :
    depsInVocab dx = true ↔ ∀ e ∈ dx, ∀ a ∈ e.2.artNames, vocab.contains a = true := by
  simp [depsInVocab, List.all_eq_true]

theorem elastic_head (scf : AbiInput) (ri p d : Bool) (tol : Tolerances)
    (den : Option Deps) (dm em sm : List AbiInput) (w : Reg)
    (hw : wfkRegOf scf tol den = .ok w) :
    ∃ regs, ElasticWork.from_scf_input scf ri p d tol den dm em sm = .ok regs ∧
      regs.head? = some w :=
  ⟨_, elastic_regs_explicit scf ri p d tol den dm em sm w hw, rfl⟩


/-! ## Claims about GkqPathFlow.from_scf_input -/

/-- C1: iterating over `work_qpath.phonon_tasks`, every distinct q-point
tuple gets exactly one eph task registered in `eph_work` (and exactly one
in `inteph_work` when `test_ft_interpolation` is true), and a phonon task
whose q-point tuple was already seen adds no task. -/
theorem gkq_one_eph_task_per_distinct_qpt (scf_input : AbiInput) (ngqpt : List ℚ)
    (phonon_tasks : List PhTask) (test_ft_interpolation : Bool) (q : List ℚ) :
    (countQpt q (GkqPathFlow.from_scf_input scf_input ngqpt phonon_tasks
        test_ft_interpolation).eph_work =
      if q ∈ phonon_tasks.map PhTask.qpt then 1 else 0) ∧
    (test_ft_interpolation = true →
      countQpt q ((GkqPathFlow.from_scf_input scf_input ngqpt phonon_tasks
          test_ft_interpolation).inteph_work.getD []) =
        if q ∈ phonon_tasks.map PhTask.qpt then 1 else 0) ∧
    (∀ t : PhTask, t.qpt ∈ phonon_tasks.map PhTask.qpt →
      GkqPathFlow.from_scf_input scf_input ngqpt (phonon_tasks ++ [t])
          test_ft_interpolation =
        GkqPathFlow.from_scf_input scf_input ngqpt phonon_tasks
          test_ft_interpolation) := by
  refine ⟨?_, ?_, ?_⟩
  · rw [GkqPathFlow.from_scf_input]
    rw [countQpt_ephLoop _ (qptVar_ephBuild scf_input ngqpt)]
    simp
  · intro hft
    subst hft
    rw [GkqPathFlow.from_scf_input]
    simp only [if_true, Option.getD_some]
    rw [countQpt_ephLoop _ (qptVar_intephBuild scf_input ngqpt)]
    simp
  · intro t ht
    simp [GkqPathFlow.from_scf_input,
      ephLoop_append_dup _ _ _ _ (Or.inl ht)]

/-- C1 witness: one phonon task at q = (0,0,0); the eph work and the
interpolation work each hold one task for it, and a duplicate phonon task
at the same q-point adds nothing. -/
theorem gkq_one_eph_task_per_distinct_qpt_witness :
    (countQpt [0, 0, 0] (GkqPathFlow.from_scf_input ⟨[]⟩ [2, 2, 2]
        [⟨[0, 0, 0], []⟩] true).eph_work =
      if ([0, 0, 0] : List ℚ) ∈ ([⟨[0, 0, 0], []⟩] : List PhTask).map PhTask.qpt
      then 1 else 0) ∧
    (countQpt [0, 0, 0] ((GkqPathFlow.from_scf_input ⟨[]⟩ [2, 2, 2]
        [⟨[0, 0, 0], []⟩] true).inteph_work.getD []) =
      if ([0, 0, 0] : List ℚ) ∈ ([⟨[0, 0, 0], []⟩] : List PhTask).map PhTask.qpt
      then 1 else 0) ∧
    GkqPathFlow.from_scf_input ⟨[]⟩ [2, 2, 2]
        ([⟨[0, 0, 0], []⟩] ++ [⟨[0, 0, 0], [(.node (.task 3), .art "WFK")]⟩]) true =
      GkqPathFlow.from_scf_input ⟨[]⟩ [2, 2, 2] [⟨[0, 0, 0], []⟩] true := by
  have h := gkq_one_eph_task_per_distinct_qpt ⟨[]⟩ [2, 2, 2] [⟨[0, 0, 0], []⟩] true [0, 0, 0]
  exact ⟨h.1, h.2.1 rfl, h.2.2 ⟨[0, 0, 0], [(.node (.task 3), .art "WFK")]⟩ (by simp)⟩

/-- C2 counterexample: the q-points (0,0,0) and (0,0,1) differ by the
reciprocal-lattice vector (0,0,1), so they are physically equivalent, yet
they are distinct tuples and `GkqPathFlow.from_scf_input` registers two
eph tasks for them, not one: deduplication is by exact tuple equality
only. -/
theorem gkq_physically_equivalent_qpts_not_deduplicated :
    ([0, 0, 0] : List ℚ) ≠ [0, 0, 1] ∧
    (GkqPathFlow.from_scf_input ⟨[]⟩ [2, 2, 2]
        [⟨[0, 0, 0], []⟩, ⟨[0, 0, 1], []⟩] true).eph_work.length = 2 :=
  ⟨by decide, rfl⟩

/-- C2 as amended: inside one construction pass, two registration requests
with EQUAL q-point tuples yield exactly one eph task, carrying the first
request's dependency edges; two requests with distinct tuples — even
physically equivalent ones — each yield their own task. -/
theorem gkq_dedup_by_exact_tuple_equality (scf_input : AbiInput) (ngqpt : List ℚ)
    (test_ft_interpolation : Bool) (q q2 : List ℚ) (d1 d2 : Deps) :
    (GkqPathFlow.from_scf_input scf_input ngqpt [⟨q, d1⟩, ⟨q, d2⟩]
        test_ft_interpolation).eph_work = [ephBuild scf_input ngqpt q d1] ∧
    (q ≠ q2 →
      (GkqPathFlow.from_scf_input scf_input ngqpt [⟨q, d1⟩, ⟨q2, d2⟩]
          test_ft_interpolation).eph_work =
        [ephBuild scf_input ngqpt q d1, ephBuild scf_input ngqpt q2 d2]) := by
  constructor
  · simp [GkqPathFlow.from_scf_input, ephLoop]
  · intro hne
    simp [GkqPathFlow.from_scf_input, ephLoop, Ne.symm hne]

/-- C2 amended witness at q = (0,0,0) against q2 = (0,0,1). -/
theorem gkq_dedup_by_exact_tuple_equality_witness :
    (GkqPathFlow.from_scf_input ⟨[]⟩ [2, 2, 2]
        [⟨[0, 0, 0], []⟩, ⟨[0, 0, 0], [(.node (.task 5), .art "WFK")]⟩] true).eph_work =
      [ephBuild ⟨[]⟩ [2, 2, 2] [0, 0, 0] []] ∧
    (GkqPathFlow.from_scf_input ⟨[]⟩ [2, 2, 2]
        [⟨[0, 0, 0], []⟩, ⟨[0, 0, 1], [(.node (.task 5), .art "WFK")]⟩] true).eph_work =
      [ephBuild ⟨[]⟩ [2, 2, 2] [0, 0, 0] [],
       ephBuild ⟨[]⟩ [2, 2, 2] [0, 0, 1] [(.node (.task 5), .art "WFK")]] :=
  ⟨(gkq_dedup_by_exact_tuple_equality ⟨[]⟩ [2, 2, 2] true [0, 0, 0] [0, 0, 1] []
      [(.node (.task 5), .art "WFK")]).1,
    (gkq_dedup_by_exact_tuple_equality ⟨[]⟩ [2, 2, 2] true [0, 0, 0] [0, 0, 1] []
      [(.node (.task 5), .art "WFK")]).2 (by decide)⟩

/-- C3: the seen-set is re-initialized between building `eph_work` and
building `inteph_work`, so with `test_ft_interpolation = true` every
distinct q-point tuple gets one eph task in `eph_work` and a second,
separate one in `inteph_work`. -/
theorem gkq_seen_set_reinitialized_per_work (scf_input : AbiInput) (ngqpt : List ℚ)
    (phonon_tasks : List PhTask) (q : List ℚ)
    (hq : q ∈ phonon_tasks.map PhTask.qpt) :
    countQpt q (GkqPathFlow.from_scf_input scf_input ngqpt phonon_tasks true).eph_work = 1 ∧
    (GkqPathFlow.from_scf_input scf_input ngqpt phonon_tasks true).inteph_work ≠ none ∧
    countQpt q ((GkqPathFlow.from_scf_input scf_input ngqpt phonon_tasks
        true).inteph_work.getD []) = 1 := by
  refine ⟨?_, ?_, ?_⟩
  · rw [GkqPathFlow.from_scf_input,
      countQpt_ephLoop _ (qptVar_ephBuild scf_input ngqpt)]
    simp [hq]
  · simp [GkqPathFlow.from_scf_input]
  · rw [GkqPathFlow.from_scf_input]
    simp only [if_true, Option.getD_some]
    rw [countQpt_ephLoop _ (qptVar_intephBuild scf_input ngqpt)]
    simp [hq]

/-- C3 witness: q = (0,0,0) gets one task in each of the two works. -/
theorem gkq_seen_set_reinitialized_per_work_witness :
    countQpt [0, 0, 0] (GkqPathFlow.from_scf_input ⟨[]⟩ [2, 2, 2]
        [⟨[0, 0, 0], []⟩] true).eph_work = 1 ∧
    (GkqPathFlow.from_scf_input ⟨[]⟩ [2, 2, 2] [⟨[0, 0, 0], []⟩] true).inteph_work ≠ none ∧
    countQpt [0, 0, 0] ((GkqPathFlow.from_scf_input ⟨[]⟩ [2, 2, 2]
        [⟨[0, 0, 0], []⟩] true).inteph_work.getD []) = 1 :=
  gkq_seen_set_reinitialized_per_work ⟨[]⟩ [2, 2, 2] [⟨[0, 0, 0], []⟩] [0, 0, 0] (by simp)

/-- C6: every eph task of the ab-initio work carries the dependency
dictionary of its corresponding upstream phonon task united with an edge
on `work_qmesh` for "DDB" and an edge on `work_qpath` for "DVDB"; every
eph task of the interpolation work instead adds two edges to the single
producer `work_qmesh`, for "DDB" and "DVDB". -/
theorem gkq_eph_task_dependency_edges (scf_input : AbiInput) (ngqpt : List ℚ)
    (phonon_tasks : List PhTask) (test_ft_interpolation : Bool) (r : Reg) :
    (r ∈ (GkqPathFlow.from_scf_input scf_input ngqpt phonon_tasks
        test_ft_interpolation).eph_work →
      ∃ t ∈ phonon_tasks, r.input = make_eph_input scf_input ngqpt t.qpt ∧
        r.deps = t.deps ++
          [(.node work_qmesh, .art "DDB"), (.node work_qpath, .art "DVDB")]) ∧
    (∀ regs, (GkqPathFlow.from_scf_input scf_input ngqpt phonon_tasks
        test_ft_interpolation).inteph_work = some regs → r ∈ regs →
      ∃ t ∈ phonon_tasks,
        r.input = (make_eph_input scf_input ngqpt t.qpt).setVar "eph_use_ftinterp" (.num 1) ∧
        r.deps = t.deps ++ [(.node work_qmesh, .arts ["DDB", "DVDB"])]) := by
  constructor
  · intro hr
    rw [GkqPathFlow.from_scf_input] at hr
    obtain ⟨t, ht, rfl⟩ := mem_ephLoop _ _ _ _ hr
    exact ⟨t, ht, rfl, rfl⟩
  · intro regs hregs hr
    rw [GkqPathFlow.from_scf_input] at hregs
    by_cases hft : test_ft_interpolation = true
    · rw [if_pos hft] at hregs
      obtain rfl := Option.some.inj hregs
      obtain ⟨t, ht, rfl⟩ := mem_ephLoop _ _ _ _ hr
      exact ⟨t, ht, rfl, rfl⟩
    · rw [if_neg hft] at hregs
      exact absurd hregs (by simp)

/-- C6 witness: the concrete eph task and interpolation eph task built for
q = (0,0,0) carry exactly the stated dependency edges. -/
theorem gkq_eph_task_dependency_edges_witness :
    (∃ t ∈ ([⟨[0, 0, 0], []⟩] : List PhTask),
      (ephBuild ⟨[]⟩ [2, 2, 2] [0, 0, 0] []).input = make_eph_input ⟨[]⟩ [2, 2, 2] t.qpt ∧
      (ephBuild ⟨[]⟩ [2, 2, 2] [0, 0, 0] []).deps = t.deps ++
        [(.node work_qmesh, .art "DDB"), (.node work_qpath, .art "DVDB")]) ∧
    (∃ t ∈ ([⟨[0, 0, 0], []⟩] : List PhTask),
      (intephBuild ⟨[]⟩ [2, 2, 2] [0, 0, 0] []).input =
        (make_eph_input ⟨[]⟩ [2, 2, 2] t.qpt).setVar "eph_use_ftinterp" (.num 1) ∧
      (intephBuild ⟨[]⟩ [2, 2, 2] [0, 0, 0] []).deps = t.deps ++
        [(.node work_qmesh, .arts ["DDB", "DVDB"])]) := by
  refine ⟨(gkq_eph_task_dependency_edges ⟨[]⟩ [2, 2, 2] [⟨[0, 0, 0], []⟩] true
      (ephBuild ⟨[]⟩ [2, 2, 2] [0, 0, 0] [])).1 ?_,
    (gkq_eph_task_dependency_edges ⟨[]⟩ [2, 2, 2] [⟨[0, 0, 0], []⟩] true
      (intephBuild ⟨[]⟩ [2, 2, 2] [0, 0, 0] [])).2 _ rfl ?_⟩
  · simp [GkqPathFlow.from_scf_input, ephLoop]
  · simp [ephLoop]

/-- C9: for every combination of the flags `with_relaxed_ion`,
`with_piezo`, `with_dde` (and all other inputs), `ElasticWork.from_scf_input`
never reads `ddk_deps` before binding it — construction never raises a
`NameError` — and `ddk_deps` is bound exactly when `with_piezo or with_dde`
is true. -/
theorem elastic_no_name_error (scf : AbiInput) (ri p d : Bool) (tol : Tolerances)
    (den : Option Deps) (dm em sm : List AbiInput) :
    isNameError (ElasticWork.from_scf_input scf ri p d tol den dm em sm) = false ∧
    (ddkDepsBinding p d dm.length).isSome = (p || d) := by
  constructor
  · rcases hw : wfkRegOf scf tol den with e0 | w
    · obtain rfl := wfkRegOf_error scf tol den e0 hw
      rw [ElasticWork.from_scf_input, hw]
      rfl
    · rw [elastic_regs_explicit scf ri p d tol den dm em sm w hw]
      rfl
  · cases p <;> cases d <;> simp [ddkDepsBinding]

/-- C10: the first registration of `ElasticWork.from_scf_input` is a plain
SCF task on `scf_input` when `den_deps` is `None`; otherwise it is an NSCF
task on `scf_input` with `iscf = -2` and `tolwfr` taken from
`tolerances["nscf"]["tolwfr"]` when the key "nscf" is present and `1.0e-20`
otherwise, with `den_deps` as its dependency dictionary. -/
theorem elastic_wfk_task_registration (scf : AbiInput) (ri p d : Bool)
    (tol : Tolerances) (den : Option Deps) (dm em sm : List AbiInput) :
    (den = none →
      ∃ regs, ElasticWork.from_scf_input scf ri p d tol den dm em sm = .ok regs ∧
        regs.head? = some ⟨.scf, scf, []⟩) ∧
    (∀ dd, den = some dd → alookup "nscf" tol = none →
      ∃ regs, ElasticWork.from_scf_input scf ri p d tol den dm em sm = .ok regs ∧
        regs.head? = some ⟨.nscf,
          (scf.setVar "iscf" (.num (-2))).setVar "tolwfr" (.num ((1 : ℚ) / 10 ^ 20)), dd⟩) ∧
    (∀ dd t x, den = some dd → alookup "nscf" tol = some t → alookup "tolwfr" t = some x →
      ∃ regs, ElasticWork.from_scf_input scf ri p d tol den dm em sm = .ok regs ∧
        regs.head? = some ⟨.nscf,
          (scf.setVar "iscf" (.num (-2))).setVar "tolwfr" (.num x), dd⟩) := by
  refine ⟨?_, ?_, ?_⟩
  · rintro rfl
    exact elastic_head scf ri p d tol none dm em sm _ rfl
  · rintro dd rfl hn
    refine elastic_head scf ri p d tol (some dd) dm em sm _ ?_
    unfold wfkRegOf nscfTolwfr
    rw [hn]
    rfl
  · rintro dd t x rfl hn ht
    refine elastic_head scf ri p d tol (some dd) dm em sm _ ?_
    unfold wfkRegOf nscfTolwfr
    rw [hn]
    dsimp only
    rw [ht]
    rfl

/-- C10 witness: the three registration shapes at concrete inputs — no
`den_deps`; `den_deps` without an "nscf" tolerance (default 1.0e-20); and
`den_deps` with `tolerances["nscf"]["tolwfr"] = 3`. -/
theorem elastic_wfk_task_registration_witness :
    (∃ regs, ElasticWork.from_scf_input ⟨[]⟩ false false false [] none [] [] [] = .ok regs ∧
      regs.head? = some ⟨.scf, ⟨[]⟩, []⟩) ∧
    (∃ regs, ElasticWork.from_scf_input ⟨[]⟩ false false false []
        (some [(.node (.work 0), .art "DEN")]) [] [] [] = .ok regs ∧
      regs.head? = some ⟨.nscf,
        ((⟨[]⟩ : AbiInput).setVar "iscf" (.num (-2))).setVar "tolwfr" (.num ((1 : ℚ) / 10 ^ 20)),
        [(.node (.work 0), .art "DEN")]⟩) ∧
    (∃ regs, ElasticWork.from_scf_input ⟨[]⟩ false false false
        [("nscf", [("tolwfr", (3 : ℚ))])] (some [(.node (.work 0), .art "DEN")]) [] [] [] =
        .ok regs ∧
      regs.head? = some ⟨.nscf,
        ((⟨[]⟩ : AbiInput).setVar "iscf" (.num (-2))).setVar "tolwfr" (.num (3 : ℚ)),
        [(.node (.work 0), .art "DEN")]⟩) :=
  ⟨(elastic_wfk_task_registration ⟨[]⟩ false false false [] none [] [] []).1 rfl,
   (elastic_wfk_task_registration ⟨[]⟩ false false false []
     (some [(.node (.work 0), .art "DEN")]) [] [] []).2.1 _ rfl rfl,
   (elastic_wfk_task_registration ⟨[]⟩ false false false
     [("nscf", [("tolwfr", (3 : ℚ))])] (some [(.node (.work 0), .art "DEN")]) [] [] []).2.2
     _ _ _ rfl rfl rfl⟩

/-- C4 counterexample: the very first `deps` dictionary the source
constructs, `{wfk_task: "WFK"}` for a DDK task, is keyed by the producer
task with the artifact name as value — not, as the claim states, keyed by
the artifact name with the producer as value. -/
theorem deps_not_keyed_by_artifact_name :
    ElasticWork.from_scf_input ⟨[]⟩ false true false [] none [⟨[]⟩] [] [] =
      .ok [⟨.scf, ⟨[]⟩, []⟩, ⟨.ddk, ⟨[]⟩, [(.node (.task 0), .art "WFK")]⟩] ∧
    entrySpecShaped (.node (.task 0), .art "WFK") = false :=
  ⟨rfl, rfl⟩

/-- C4 as amended: every `deps` dictionary entry constructed in the source
maps a producer-Task (or producer-Work) reference to an artifact name, or
to a list of artifact names when one producer supplies several — provided
the caller-supplied pass-through dictionaries (`den_deps`, the phonon
tasks' `task.deps`) have that shape too. -/
theorem deps_map_producer_to_artifact_names
    (scf : AbiInput) (ri p d : Bool) (tol : Tolerances) (den : Option Deps)
    (dm em sm : List AbiInput) (regs : List Reg)
    (hok : ElasticWork.from_scf_input scf ri p d tol den dm em sm = .ok regs)
    (hden : ∀ dd, den = some dd → dd.all entryCodeShaped = true)
    (scf2 : AbiInput) (ngqpt : List ℚ) (ts : List PhTask) (ft : Bool)
    (hts : ∀ t ∈ ts, t.deps.all entryCodeShaped = true) :
    (∀ r ∈ regs, r.deps.all entryCodeShaped = true) ∧
    (∀ r ∈ (GkqPathFlow.from_scf_input scf2 ngqpt ts ft).eph_work,
      r.deps.all entryCodeShaped = true) ∧
    (∀ regs2, (GkqPathFlow.from_scf_input scf2 ngqpt ts ft).inteph_work = some regs2 →
      ∀ r ∈ regs2, r.deps.all entryCodeShaped = true) := by
  refine ⟨?_, ?_, ?_⟩
  · intro r hr
    rw [List.all_eq_true]
    intro e he
    rcases elastic_deps_entry_cases scf ri p d tol den dm em sm regs hok r hr e he with
      ⟨dd, hdd, hmem⟩ | rfl | ⟨i, rfl⟩
    · exact List.all_eq_true.mp (hden dd hdd) e hmem
    · rfl
    · rfl
  · intro r hr
    rw [GkqPathFlow.from_scf_input] at hr
    obtain ⟨t, ht, rfl⟩ := mem_ephLoop _ _ _ _ hr
    rw [List.all_eq_true]
    intro e he
    rcases List.mem_append.mp he with he | he
    · exact List.all_eq_true.mp (hts t ht) e he
    · rcases List.mem_cons.mp he with rfl | he
      · rfl
      · rcases List.mem_cons.mp he with rfl | he
        · rfl
        · exact absurd he (List.not_mem_nil e)
  · intro regs2 hregs2 r hr
    rw [GkqPathFlow.from_scf_input] at hregs2
    rcases hft : ft with _ | _
    · rw [hft, if_neg (by simp)] at hregs2
      exact absurd hregs2 (by simp)
    · rw [hft, if_pos rfl] at hregs2
      obtain rfl := Option.some.inj hregs2
      obtain ⟨t, ht, rfl⟩ := mem_ephLoop _ _ _ _ hr
      rw [List.all_eq_true]
      intro e he
      rcases List.mem_append.mp he with he | he
      · exact List.all_eq_true.mp (hts t ht) e he
      · rcases List.mem_cons.mp he with rfl | he
        · rfl
        · exact absurd he (List.not_mem_nil e)

/-- C4 amended witness: a concrete ElasticWork registration list and the
concrete Gkq flow, with well-shaped pass-through dictionaries. -/
theorem deps_map_producer_to_artifact_names_witness :
    (∀ r ∈ [(⟨.scf, ⟨[]⟩, []⟩ : Reg),
        ⟨.ddk, ⟨[]⟩, [(.node (.task 0), .art "WFK")]⟩,
        ⟨.dde, ⟨[]⟩, [(.node (.task 0), .art "WFK"), (.node (.task 1), .art "DDK")]⟩],
      r.deps.all entryCodeShaped = true) ∧
    (∀ r ∈ (GkqPathFlow.from_scf_input ⟨[]⟩ [2, 2, 2]
        [⟨[0, 0, 0], [(.node (.task 0), .art "WFK")]⟩] true).eph_work,
      r.deps.all entryCodeShaped = true) ∧
    (∀ regs2, (GkqPathFlow.from_scf_input ⟨[]⟩ [2, 2, 2]
        [⟨[0, 0, 0], [(.node (.task 0), .art "WFK")]⟩] true).inteph_work = some regs2 →
      ∀ r ∈ regs2, r.deps.all entryCodeShaped = true) :=
  deps_map_producer_to_artifact_names ⟨[]⟩ true true true [] none [⟨[]⟩] [⟨[]⟩] [] _
    rfl (fun _ h => Option.noConfusion h) ⟨[]⟩ [2, 2, 2]
    [⟨[0, 0, 0], [(.node (.task 0), .art "WFK")]⟩] true
    (by intro t ht; rcases List.mem_singleton.mp ht with rfl; rfl)

/-- C5: every dependency edge `ElasticWork.from_scf_input` and
`GkqPathFlow.from_scf_input` construct labels its artifact with a name
from {"WFK", "DDK", "DDB", "DVDB"} — provided the caller-supplied
pass-through dictionaries only use such names, every registered task's
dictionary does. -/
theorem dependency_artifact_names_from_vocab
    (scf : AbiInput) (ri p d : Bool) (tol : Tolerances) (den : Option Deps)
    (dm em sm : List AbiInput) (regs : List Reg)
    (hok : ElasticWork.from_scf_input scf ri p d tol den dm em sm = .ok regs)
    (hden : ∀ dd, den = some dd → depsInVocab dd = true)
    (scf2 : AbiInput) (ngqpt : List ℚ) (ts : List PhTask) (ft : Bool)
    (hts : ∀ t ∈ ts, depsInVocab t.deps = true) :
    (∀ r ∈ regs, depsInVocab r.deps = true) ∧
    (∀ r ∈ (GkqPathFlow.from_scf_input scf2 ngqpt ts ft).eph_work,
      depsInVocab r.deps = true) ∧
    (∀ regs2, (GkqPathFlow.from_scf_input scf2 ngqpt ts ft).inteph_work = some regs2 →
      ∀ r ∈ regs2, depsInVocab r.deps = true) := by
  refine ⟨?_, ?_, ?_⟩
  · intro r hr
    rw [depsInVocab_iff]
    intro e he a ha
    rcases elastic_deps_entry_cases scf ri p d tol den dm em sm regs hok r hr e he with
      ⟨dd, hdd, hmem⟩ | rfl | ⟨i, rfl⟩
    · exact (depsInVocab_iff dd).mp (hden dd hdd) e hmem a ha
    · simp only [DepVal.artNames, List.mem_singleton] at ha
      subst ha; decide
    · simp only [DepVal.artNames, List.mem_singleton] at ha
      subst ha; decide
  · intro r hr
    rw [GkqPathFlow.from_scf_input] at hr
    obtain ⟨t, ht, rfl⟩ := mem_ephLoop _ _ _ _ hr
    rw [depsInVocab_iff]
    intro e he a ha
    rcases List.mem_append.mp he with he | he
    · exact (depsInVocab_iff t.deps).mp (hts t ht) e he a ha
    · rcases List.mem_cons.mp he with rfl | he
      · simp only [DepVal.artNames, List.mem_singleton] at ha
        subst ha; decide
      · rcases List.mem_cons.mp he with rfl | he
        · simp only [DepVal.artNames, List.mem_singleton] at ha
          subst ha; decide
        · exact absurd he (List.not_mem_nil e)
  · intro regs2 hregs2 r hr
    rw [GkqPathFlow.from_scf_input] at hregs2
    rcases hft : ft with _ | _
    · rw [hft, if_neg (by simp)] at hregs2
      exact absurd hregs2 (by simp)
    · rw [hft, if_pos rfl] at hregs2
      obtain rfl := Option.some.inj hregs2
      obtain ⟨t, ht, rfl⟩ := mem_ephLoop _ _ _ _ hr
      rw [depsInVocab_iff]
      intro e he a ha
      rcases List.mem_append.mp he with he | he
      · exact (depsInVocab_iff t.deps).mp (hts t ht) e he a ha
      · rcases List.mem_cons.mp he with rfl | he
        · simp only [DepVal.artNames] at ha
          rcases List.mem_cons.mp ha with rfl | ha
          · decide
          · rcases List.mem_cons.mp ha with rfl | ha
            · decide
            · exact absurd ha (List.not_mem_nil a)
        · exact absurd he (List.not_mem_nil e)

/-- C5 witness: a concrete ElasticWork registration list and the concrete
Gkq flow at q = (0,0,0), with pass-through dictionaries using only "WFK". -/
theorem dependency_artifact_names_from_vocab_witness :
    (∀ r ∈ [(⟨.scf, ⟨[]⟩, []⟩ : Reg),
        ⟨.ddk, ⟨[]⟩, [(.node (.task 0), .art "WFK")]⟩,
        ⟨.dde, ⟨[]⟩, [(.node (.task 0), .art "WFK"), (.node (.task 1), .art "DDK")]⟩],
      depsInVocab r.deps = true) ∧
    (∀ r ∈ (GkqPathFlow.from_scf_input ⟨[]⟩ [2, 2, 2]
        [⟨[0, 0, 0], [(.node (.task 0), .art "WFK")]⟩] true).eph_work,
      depsInVocab r.deps = true) ∧
    (∀ regs2, (GkqPathFlow.from_scf_input ⟨[]⟩ [2, 2, 2]
        [⟨[0, 0, 0], [(.node (.task 0), .art "WFK")]⟩] true).inteph_work = some regs2 →
      ∀ r ∈ regs2, depsInVocab r.deps = true) :=
  dependency_artifact_names_from_vocab ⟨[]⟩ true true true [] none [⟨[]⟩] [⟨[]⟩] [] _
    rfl (fun _ h => Option.noConfusion h) ⟨[]⟩ [2, 2, 2]
    [⟨[0, 0, 0], [(.node (.task 0), .art "WFK")]⟩] true
    (by intro t ht; rcases List.mem_singleton.mp ht with rfl; rfl)

/-- C7: whenever `ElasticWork.on_all_ok` returns, it returns a `Results`
object with returncode 0 and message "DDB merge done", after a successful
`merge_ddb_files(delete_source_ddbs=False, only_dfpt_tasks=False)`. -/
theorem elastic_on_all_ok_returns_ddb_merge_done
    (merge_ddb_files : MergeArgs → Except String String) (r : Results)
    (h : ElasticWork.on_all_ok merge_ddb_files = .ok r) :
    r = ⟨0, "DDB merge done"⟩ ∧
    ∃ out_ddb, merge_ddb_files ⟨false, false⟩ = .ok out_ddb := by
  unfold ElasticWork.on_all_ok at h
  rcases hm : merge_ddb_files ⟨false, false⟩ with e | out
  · rw [hm] at h
    exact absurd h (by simp)
  · rw [hm] at h
    exact ⟨(Except.ok.inj h).symm, out, rfl⟩

/-- C7 witness: with a succeeding merge, `on_all_ok` returns
`Results(returncode=0, message="DDB merge done")`. -/
theorem elastic_on_all_ok_returns_ddb_merge_done_witness :
    (⟨0, "DDB merge done"⟩ : Results) = ⟨0, "DDB merge done"⟩ ∧
    ∃ out_ddb, (fun _ : MergeArgs => (Except.ok "out_DDB" : Except String String))
      ⟨false, false⟩ = .ok out_ddb :=
  elastic_on_all_ok_returns_ddb_merge_done (fun _ => .ok "out_DDB")
    ⟨0, "DDB merge done"⟩ rfl

/-- C8: when the DDB consolidation inside `ElasticWork.on_all_ok` fails,
the engine records the Work's result with success = false and the member
tasks' statuses — succeeded ones included — are left unchanged. -/
theorem elastic_aggregation_failure_reported_not_raised
    (merge_ddb_files : MergeArgs → Except String String) (e : String)
    (statuses : List TaskStatus)
    (hfail : merge_ddb_files ⟨false, false⟩ = .error e) :
    finishWork statuses (ElasticWork.on_all_ok merge_ddb_files) =
      ({ success := false, message := e }, statuses) := by
  unfold finishWork ElasticWork.on_all_ok
  rw [hfail]

/-- C8 witness: a failing merge on a work whose two member tasks
succeeded. -/
theorem elastic_aggregation_failure_reported_not_raised_witness :
    finishWork [.succeeded, .succeeded]
      (ElasticWork.on_all_ok fun _ => (Except.error "mrgddb failed" : Except String String)) =
      ({ success := false, message := "mrgddb failed" }, [.succeeded, .succeeded]) :=
  elastic_aggregation_failure_reported_not_raised
    (fun _ => .error "mrgddb failed") "mrgddb failed" [.succeeded, .succeeded] rfl

end Abipy
